import Mathlib

/-!
Shallow embedding of the `query-manager` repository's variance-analysis core
(`src/Analytics/duckdb_batch_variance.py`, function `run_variance_analysis`)
and of the metadata sync orchestrator
(`src/Analytics/metadata_pipeline/metadata_auto_loader.py`).

Numeric columns (DuckDB DOUBLE / pandas float64) are modelled as rationals `ℚ`;
SQL `NULL` (which pandas receives as `NaN`) is modelled as `Option ℚ` where the
claims only ever meet the NULL/NaN values produced by the `CASE WHEN base=0
THEN NULL` percentage columns.  The aggregation stage, where genuine NULL and
NaN *inputs* matter, is modelled separately with an explicit three-valued cell
type `DVal`.
-/

namespace BatchVariance

/-! ### Python / pandas string ordering

`pandas.groupby(..., sort=True)` sorts group keys with Python's string
comparison, i.e. lexicographically by Unicode code point.  We embed that
order executably on `String.data`. -/

/-- Lexicographic comparison of character lists by code point (Python string `<=`). -/
def lexLe : List Char → List Char → Bool
  | [], _ => true
  | _ :: _, [] => false
  | a :: as, b :: bs => if a < b then true else if b < a then false else lexLe as bs

/-- Python string `<=`, used by `pandas.groupby` to sort group keys. -/
def strLe (a b : String) : Bool := lexLe a.data b.data

/-- `strLe` as a relation, for use with `List.insertionSort`. -/
def strLeP (a b : String) : Prop := strLe a b = true

instance : DecidableRel strLeP := fun a b => instDecidableEqBool (strLe a b) true

/-- Sum of a list of rationals (`pandas.Series.sum` over non-missing values). -/
def qsum (l : List ℚ) : ℚ := l.sum

/-- Mean of a list of rationals; `none` on the empty list
(`pandas.Series.mean` with default `skipna=True` yields `NaN` when no
non-missing value exists). -/
def meanQ (l : List ℚ) : Option ℚ := if l = [] then none else some (qsum l / l.length)

/-- Stable ascending sort by a rational key.  `pandas.DataFrame.sort_values`
computes an ascending argsort of the key column; for the short arrays produced
here numpy's sort is its (stable) insertion sort. -/
def sortAscBy {α : Type} (key : α → ℚ) (l : List α) : List α :=
  List.insertionSort (fun a b => key a ≤ key b) l

/-- `sort_values(key, ascending=False)`: pandas implements a descending sort by
reversing the ascending argsort (`pandas.core.sorting.nargsort`), so ties come
out in reversed input order. -/
def sortDescBy {α : Type} (key : α → ℚ) (l : List α) : List α :=
  (sortAscBy key l).reverse

/-- `sort_values(key, ascending=False, na_position="last")` for a nullable key:
pandas removes the NaN rows, reverses the ascending argsort of the rest, and
appends the NaN rows at the end in their original order. -/
def sortDescNaLast {α : Type} (key : α → Option ℚ) (l : List α) : List α :=
  sortDescBy (fun a => (key a).getD 0) (l.filter fun a => (key a).isSome)
    ++ l.filter (fun a => (key a).isNone)

/-! ### Aggregated snapshots and the full outer join

`run_variance_analysis` lines 72–89: `agg_base` / `agg_comp` group the raw
rows of one date by `(region, eod_date, parameter_group, instance_name,
model_name)` and sum the three metric columns; since each side fixes one
`eod_date`, an aggregate row is identified by `(region, parameter_group,
instance_name, model_name)`. -/

/-- One row of `agg_base` or `agg_comp`: the group-by key columns and the three
metric sums (`base_*` on the baseline side, `comp_*` on the compare side). -/
structure AggRow where
  region : String
  parameter_group : String
  instance_name : String
  model_name : String
  raw_hours : ℚ
  model_cpu_hours : ℚ
  security_thousands : ℚ
deriving DecidableEq, Repr

/-- The GroupKey of an aggregate row: `(region, parameter_group, instance_name, model_name)`. -/
def aggKey (r : AggRow) : String × String × String × String :=
  (r.region, r.parameter_group, r.instance_name, r.model_name)

/-- The columns the SQL join actually matches on (line 102):
`b.parameter_group=c.parameter_group AND b.instance_name=c.instance_name AND
b.model_name=c.model_name` — note that `region` is *not* part of the ON clause. -/
def tripleKey (r : AggRow) : String × String × String :=
  (r.parameter_group, r.instance_name, r.model_name)

/-- The ON condition of the `FULL OUTER JOIN` (line 102). -/
def joinCond (b c : AggRow) : Prop :=
  b.parameter_group = c.parameter_group ∧ b.instance_name = c.instance_name ∧
    b.model_name = c.model_name

instance : ∀ b c, Decidable (joinCond b c) := fun _ _ => instDecidableAnd

/-- One row of the `joined` CTE (lines 90–103): COALESCEd key columns and the
six metric sums, missing sides filled with `0.0`. -/
structure JoinedRow where
  region : String
  parameter_group : String
  instance_name : String
  model_name : String
  base_raw_hours : ℚ
  comp_raw_hours : ℚ
  base_model_cpu_hours : ℚ
  comp_model_cpu_hours : ℚ
  base_security_thousands : ℚ
  comp_security_thousands : ℚ
deriving DecidableEq, Repr

/-- A matched pair of the outer join: every COALESCE takes the baseline side
(non-NULL left argument). -/
def mkJoinedBC (b c : AggRow) : JoinedRow :=
  { region := b.region
    parameter_group := b.parameter_group
    instance_name := b.instance_name
    model_name := b.model_name
    base_raw_hours := b.raw_hours
    comp_raw_hours := c.raw_hours
    base_model_cpu_hours := b.model_cpu_hours
    comp_model_cpu_hours := c.model_cpu_hours
    base_security_thousands := b.security_thousands
    comp_security_thousands := c.security_thousands }

/-- A baseline row with no compare match: the compare sums COALESCE to `0.0`. -/
def mkJoinedB (b : AggRow) : JoinedRow :=
  { region := b.region
    parameter_group := b.parameter_group
    instance_name := b.instance_name
    model_name := b.model_name
    base_raw_hours := b.raw_hours
    comp_raw_hours := 0
    base_model_cpu_hours := b.model_cpu_hours
    comp_model_cpu_hours := 0
    base_security_thousands := b.security_thousands
    comp_security_thousands := 0 }

/-- A compare row with no baseline match: the baseline sums COALESCE to `0.0`. -/
def mkJoinedC (c : AggRow) : JoinedRow :=
  { region := c.region
    parameter_group := c.parameter_group
    instance_name := c.instance_name
    model_name := c.model_name
    base_raw_hours := 0
    comp_raw_hours := c.raw_hours
    base_model_cpu_hours := 0
    comp_model_cpu_hours := c.model_cpu_hours
    base_security_thousands := 0
    comp_security_thousands := c.security_thousands }

/-- `FULL OUTER JOIN` semantics (lines 101–102): one output row per pair
satisfying the ON condition, plus the unmatched rows of either side with the
other side NULL-filled (here already COALESCEd to `0.0`). -/
def fullOuterJoin (bs cs : List AggRow) : List JoinedRow :=
  (bs.flatMap fun b => ((cs.filter fun c => decide (joinCond b c)).map fun c => mkJoinedBC b c))
    ++ ((bs.filter fun b => !(cs.any fun c => decide (joinCond b c))).map mkJoinedB)
    ++ ((cs.filter fun c => !(bs.any fun b => decide (joinCond b c))).map mkJoinedC)

/-- The GroupKey of a joined row. -/
def groupKey (r : JoinedRow) : String × String × String × String :=
  (r.region, r.parameter_group, r.instance_name, r.model_name)

/-! ### The final SELECT: delta and percentage columns (lines 104–111) -/

/-- One row of the dataframe `df` returned by the main SQL query: the joined
columns plus the computed delta and percentage columns.  A percentage column
is `NULL` (pandas: `NaN`) exactly when its base is `0` (`CASE WHEN base=0 THEN
NULL ELSE (comp-base)/base END`); `Option.none` models that sentinel. -/
structure DfRow where
  region : String
  parameter_group : String
  instance_name : String
  model_name : String
  base_raw_hours : ℚ
  comp_raw_hours : ℚ
  base_model_cpu_hours : ℚ
  comp_model_cpu_hours : ℚ
  base_security_thousands : ℚ
  comp_security_thousands : ℚ
  delta_raw_hours : ℚ
  delta_model_cpu_hours : ℚ
  delta_security_thousands : ℚ
  pct_raw_hours : Option ℚ
  pct_model_cpu_hours : Option ℚ
  pct_security_thousands : Option ℚ
deriving DecidableEq, Repr

/-- The computed columns of the final SELECT (lines 104–110). -/
def selectRow (j : JoinedRow) : DfRow :=
  { region := j.region
    parameter_group := j.parameter_group
    instance_name := j.instance_name
    model_name := j.model_name
    base_raw_hours := j.base_raw_hours
    comp_raw_hours := j.comp_raw_hours
    base_model_cpu_hours := j.base_model_cpu_hours
    comp_model_cpu_hours := j.comp_model_cpu_hours
    base_security_thousands := j.base_security_thousands
    comp_security_thousands := j.comp_security_thousands
    delta_raw_hours := j.comp_raw_hours - j.base_raw_hours
    delta_model_cpu_hours := j.comp_model_cpu_hours - j.base_model_cpu_hours
    delta_security_thousands := j.comp_security_thousands - j.base_security_thousands
    pct_raw_hours :=
      if j.base_raw_hours = 0 then none
      else some ((j.comp_raw_hours - j.base_raw_hours) / j.base_raw_hours)
    pct_model_cpu_hours :=
      if j.base_model_cpu_hours = 0 then none
      else some ((j.comp_model_cpu_hours - j.base_model_cpu_hours) / j.base_model_cpu_hours)
    pct_security_thousands :=
      if j.base_security_thousands = 0 then none
      else some ((j.comp_security_thousands - j.base_security_thousands) /
        j.base_security_thousands) }

/-- The dataframe produced by step 2 of `run_variance_analysis`. -/
def dfOf (bs cs : List AggRow) : List DfRow := (fullOuterJoin bs cs).map selectRow

/-! ### Step 3: threshold flagging (lines 120–127) -/

/-- The threshold configuration: `pct_threshold` plus the `delta_thresholds`
mapping (raw / cpu / sec). -/
structure Thresholds where
  pct : ℚ
  raw : ℚ
  cpu : ℚ
  sec : ℚ
deriving DecidableEq, Repr

/-- The defaults of `run_variance_analysis`
(`pct_threshold=0.20`, `{"raw": 10.0, "cpu": 5.0, "sec": 10.0}`). -/
def defaultThresholds : Thresholds := { pct := 1/5, raw := 10, cpu := 5, sec := 10 }

/-- `abs(series) > t` for a nullable value: in pandas `abs(NaN) > t` is
`False`, so a NULL percentage never trips the percentage leg. -/
def absGt (v : Option ℚ) (t : ℚ) : Bool :=
  match v with
  | none => false
  | some x => decide (|x| > t)

/-- Line 121: `raw_var_flag = (abs(pct_raw_hours) > pct_threshold) | (abs(delta_raw_hours) > delta_thresholds["raw"])`. -/
def raw_var_flag (th : Thresholds) (r : DfRow) : Bool :=
  absGt r.pct_raw_hours th.pct || decide (|r.delta_raw_hours| > th.raw)

/-- Line 122: the CPU metric flag. -/
def cpu_var_flag (th : Thresholds) (r : DfRow) : Bool :=
  absGt r.pct_model_cpu_hours th.pct || decide (|r.delta_model_cpu_hours| > th.cpu)

/-- Line 123: the security metric flag. -/
def sec_var_flag (th : Thresholds) (r : DfRow) : Bool :=
  absGt r.pct_security_thousands th.pct || decide (|r.delta_security_thousands| > th.sec)

/-- Line 124: `any_metric_flag = df[["raw_var_flag","cpu_var_flag","sec_var_flag"]].any(axis=1)`. -/
def any_metric_flag (th : Thresholds) (r : DfRow) : Bool :=
  raw_var_flag th r || cpu_var_flag th r || sec_var_flag th r

/-- The flag columns added to `df` in step 3. -/
structure FlagCols where
  raw_flag : Bool
  cpu_flag : Bool
  sec_flag : Bool
  any_flag : Bool
deriving DecidableEq, Repr

/-- Lines 121–124 as a whole: the dataframe after the flag columns are added.
The original columns of every row are untouched; only the four flag columns
are appended. -/
def withFlags (th : Thresholds) (df : List DfRow) : List (DfRow × FlagCols) :=
  df.map fun r =>
    (r, { raw_flag := raw_var_flag th r
          cpu_flag := cpu_var_flag th r
          sec_flag := sec_var_flag th r
          any_flag := any_metric_flag th r })

/-- Line 127: `flagged[["pct_raw_hours","pct_model_cpu_hours","pct_security_thousands"]] *= 100`
— the three percentage columns of the *flagged copy* are rescaled, nothing else. -/
def scale100 (r : DfRow) : DfRow :=
  { r with
    pct_raw_hours := r.pct_raw_hours.map (· * 100)
    pct_model_cpu_hours := r.pct_model_cpu_hours.map (· * 100)
    pct_security_thousands := r.pct_security_thousands.map (· * 100) }

/-- Lines 126–127: `flagged = df[df["any_metric_flag"]].copy()` followed by the
×100 rescaling of its percentage columns. -/
def flaggedOf (th : Thresholds) (df : List DfRow) : List DfRow :=
  (df.filter fun r => any_metric_flag th r).map scale100

/-! ### Step 4: weighted rollup by parameter group (lines 129–147) -/

/-- Lines 130–132: `weighted_pct(g, base_col, delta_col)` — the base-weighted
percentage of one group, `NaN` (modelled `none`) when the base sum is zero. -/
def weighted_pct (g : List DfRow) (base delta : DfRow → ℚ) : Option ℚ :=
  let base_sum := qsum (g.map base)
  if base_sum ≠ 0 then some (qsum (g.map delta) / base_sum * 100) else none

/-- One row of `param_var`: the group key and its three weighted percentages. -/
structure ParamVarRow where
  parameter_group : String
  weighted_pct_raw : Option ℚ
  weighted_pct_cpu : Option ℚ
  weighted_pct_sec : Option ℚ
deriving DecidableEq, Repr

/-- The distinct group keys of a key column, in ascending Python-string
order — the group order produced by `pandas.groupby(..., sort=True)`. -/
def sortedKeys (keyCol : List String) : List String :=
  List.insertionSort strLeP keyCol.dedup

/-- Lines 134–142: `flagged.groupby("parameter_group").apply(...)`, one
`ParamVarRow` per distinct `parameter_group`, groups in sorted key order. -/
def paramVarRows (flagged : List DfRow) : List ParamVarRow :=
  (sortedKeys (flagged.map fun r => r.parameter_group)).map fun pg =>
    let g := flagged.filter fun r => r.parameter_group = pg
    { parameter_group := pg
      weighted_pct_raw := weighted_pct g (fun r => r.base_raw_hours) (fun r => r.delta_raw_hours)
      weighted_pct_cpu :=
        weighted_pct g (fun r => r.base_model_cpu_hours) (fun r => r.delta_model_cpu_hours)
      weighted_pct_sec :=
        weighted_pct g (fun r => r.base_security_thousands)
          (fun r => r.delta_security_thousands) }

/-- Lines 143–146: `total_weighted_abs = param_var[[...]].abs().sum(axis=1)`.
`DataFrame.sum(axis=1)` skips `NaN` entries, so a `NaN` weighted percentage
contributes `0`. -/
def total_weighted_abs (r : ParamVarRow) : ℚ :=
  (r.weighted_pct_raw.map abs).getD 0 + (r.weighted_pct_cpu.map abs).getD 0 +
    (r.weighted_pct_sec.map abs).getD 0

/-- Line 147: `param_var.sort_values("total_weighted_abs", ascending=False).head(5)`. -/
def paramVarTop5 (flagged : List DfRow) : List ParamVarRow :=
  (sortDescBy total_weighted_abs (paramVarRows flagged)).take 5

/-- Lines 134–147 as executed by pandas.  On an *empty* flagged frame,
`flagged.groupby("parameter_group").apply(...)` never calls the lambda and
returns an empty frame that still has the original columns — the
`weighted_pct_*` columns do not exist — so `.reset_index()` (duplicate
`parameter_group` column) and the subsequent
`param_var[["weighted_pct_raw", ...]]` selection raise
(`ValueError`/`KeyError`).  That failure path is modelled as `.error`. -/
def paramVarResult (flagged : List DfRow) : Except String (List ParamVarRow) :=
  if flagged.isEmpty then
    .error "empty groupby-apply result has no weighted_pct columns"
  else
    .ok (paramVarTop5 flagged)

/-! ### Step 7: model rollup (lines 188–194) -/

/-- One row of `model_var` after the `.agg(...).abs()` step: the absolute
value of the group mean of `pct_model_cpu_hours` (`NaN`, i.e. `none`, when
every percentage in the group is `NaN`) and the absolute value of the group
sum of `delta_model_cpu_hours`. -/
structure ModelVarRow where
  model_name : String
  pct_model_cpu_hours : Option ℚ
  delta_model_cpu_hours : ℚ
deriving DecidableEq, Repr

/-- The `model_var` row of one model group `g`:
`agg({"pct_model_cpu_hours": "mean", "delta_model_cpu_hours": "sum"}).abs()` —
note the `.abs()` is applied *after* the mean and the sum.  `Series.mean`
skips `NaN` values (the `NULL` percentages of zero-base rows). -/
def modelVarRow (m : String) (g : List DfRow) : ModelVarRow :=
  { model_name := m
    pct_model_cpu_hours := (meanQ (g.filterMap fun r => r.pct_model_cpu_hours)).map abs
    delta_model_cpu_hours := |qsum (g.map fun r => r.delta_model_cpu_hours)| }

/-- Lines 188–194: group `flagged` by `model_name` (sorted keys), aggregate,
take absolute values, sort descending by the aggregated percentage
(`NaN` keys last), keep the top 5. -/
def modelVarTable (flagged : List DfRow) : List ModelVarRow :=
  let rows := (sortedKeys (flagged.map fun r => r.model_name)).map fun m =>
    modelVarRow m (flagged.filter fun r => r.model_name = m)
  (sortDescNaLast (fun r => r.pct_model_cpu_hours) rows).take 5

/-- Steps 4–7 downstream of the flagging, as far as the two rollups are
concerned: the parameter-group rollup is computed first (and is the step that
fails on an empty flagged set), then the model rollup. -/
def rollupsOf (th : Thresholds) (df : List DfRow) :
    Except String (List ParamVarRow × List ModelVarRow) := do
  let flagged := flaggedOf th df
  let pv ← paramVarResult flagged
  pure (pv, modelVarTable flagged)

/-! ### The aggregation stage with NULL and NaN cells (lines 72–89)

The `agg_base` / `agg_comp` CTEs run in DuckDB, where a DOUBLE cell can be
`NULL` (missing) or the IEEE value `NaN` — two different things.  `SUM`
follows SQL semantics: `NULL` inputs are skipped, a group with no non-`NULL`
input yields `NULL`, and a `NaN` among the summed values makes the sum
`NaN`. -/

/-- A DuckDB DOUBLE cell: `NULL`, `NaN`, or a number. -/
inductive DVal where
  | null : DVal
  | nan : DVal
  | num : ℚ → DVal
deriving DecidableEq, Repr

/-- Is the cell SQL `NULL`? (`NaN` is *not* `NULL`.) -/
def DVal.isNull : DVal → Bool
  | .null => true
  | _ => false

/-- Is the cell the IEEE `NaN` value? -/
def DVal.isNan : DVal → Bool
  | .nan => true
  | _ => false

/-- The numeric content of a cell, if any. -/
def DVal.toQ : DVal → Option ℚ
  | .num q => some q
  | _ => none

/-- DuckDB `SUM` over a column of DOUBLE cells: `NULL`s are skipped; an empty
set of non-`NULL` inputs yields `NULL`; a `NaN` input propagates; otherwise
the numeric sum. -/
def duckSum (l : List DVal) : DVal :=
  let vs := l.filter fun v => !v.isNull
  if vs.isEmpty then .null
  else if vs.any (fun v => v.isNan) then .nan
  else .num (qsum (vs.filterMap DVal.toQ))

/-- One raw record of `batch_metrics_parquet`: the partition-derived `region`
and `eod_date` plus the in-file columns.  The three metric columns are DOUBLE
cells that can be `NULL` or `NaN`. -/
structure MetricRow where
  region : String
  eod_date : String
  parameter_group : String
  instance_name : String
  model_name : String
  calc_node_raw_hours : DVal
  model_cpu_hours : DVal
  security_count_thousands : DVal
deriving DecidableEq, Repr

/-- The GROUP BY key of the aggregation CTEs (for a fixed snapshot date). -/
def metricKey (r : MetricRow) : String × String × String × String :=
  (r.region, r.parameter_group, r.instance_name, r.model_name)

/-- An aggregate row as produced by DuckDB, before any COALESCE: the metric
sums may be `NULL` (all-`NULL` group) or `NaN`. -/
structure AggRowD where
  region : String
  parameter_group : String
  instance_name : String
  model_name : String
  raw_hours : DVal
  model_cpu_hours : DVal
  security_thousands : DVal
deriving DecidableEq, Repr

/-- The WHERE clause of an aggregation CTE: `bm.eod_date = p.<date>` plus the
optional `AND region = '<region>'` filter (`region_filter` is empty when no
region is supplied). -/
def selectSnapshot (rows : List MetricRow) (d : String) (regionFilter : Option String) :
    List MetricRow :=
  rows.filter fun r =>
    r.eod_date == d &&
      match regionFilter with
      | none => true
      | some rg => r.region == rg

/-- Lines 72–89: one aggregation CTE — group the selected rows by
`(region, eod_date, parameter_group, instance_name, model_name)` (the date is
fixed by the WHERE clause) and `SUM` each metric column.  One output row per
distinct group key. -/
def aggregateSnapshot (rows : List MetricRow) (d : String) (regionFilter : Option String) :
    List AggRowD :=
  let sel := selectSnapshot rows d regionFilter
  (sel.map metricKey).dedup.map fun k =>
    let g := sel.filter fun r => metricKey r = k
    { region := k.1
      parameter_group := k.2.1
      instance_name := k.2.2.1
      model_name := k.2.2.2
      raw_hours := duckSum (g.map fun r => r.calc_node_raw_hours)
      model_cpu_hours := duckSum (g.map fun r => r.model_cpu_hours)
      security_thousands := duckSum (g.map fun r => r.security_count_thousands) }

/-- A cell's value with `NULL` (and nothing else) read as `0` — the summation
semantics the spec prescribes for missing metric values. -/
def DVal.nullAsZero : DVal → Option ℚ
  | .null => some 0
  | .nan => none
  | .num q => some q

/-! ### Model-rollup aggregates as the spec words them

The spec's §4.5 / §3 describe the model rollup as "mean of |pct_cpu|" and
"sum of |delta_cpu|" (absolute value *inside* the aggregate).  These two
definitions follow the spec's words, to be compared with `modelVarRow`, which
follows the code (absolute value *after* the aggregate). -/

/-- Spec wording: the mean of the absolute values of the model's per-row CPU
percentage changes. -/
def specModelMeanAbsPct (g : List DfRow) : Option ℚ :=
  meanQ ((g.filterMap fun r => r.pct_model_cpu_hours).map fun x => |x|)

/-- Spec wording: the sum of the absolute values of the model's CPU deltas. -/
def specModelSumAbsDelta (g : List DfRow) : ℚ :=
  qsum (g.map fun r => |r.delta_model_cpu_hours|)

/-- The descending-rank relation actually realized on `model_var` rows:
defined keys descending, `NaN` keys after every defined key (`a` may precede
`b` when `b` is `NaN`, or when both are defined and `b`'s key is at most
`a`'s). -/
def rankGe (a b : ModelVarRow) : Prop :=
  b.pct_model_cpu_hours = none ∨
    ∃ x y, a.pct_model_cpu_hours = some x ∧ b.pct_model_cpu_hours = some y ∧ y ≤ x

/-! ### Concrete inputs used by witness and counterexample theorems -/

/-- Multi-region aggregates sharing one `(parameter_group, instance_name,
model_name)` triple: baseline side. -/
def multiRegionBase : List AggRow :=
  [⟨"EU", "pg1", "inst1", "mod1", 1, 1, 1⟩, ⟨"US", "pg1", "inst1", "mod1", 2, 2, 2⟩]

/-- Multi-region aggregates, compare side. -/
def multiRegionComp : List AggRow :=
  [⟨"EU", "pg1", "inst1", "mod1", 3, 3, 3⟩, ⟨"US", "pg1", "inst1", "mod1", 4, 4, 4⟩]

/-- A single-region baseline aggregate. -/
def singleRegionBase : List AggRow := [⟨"EU", "pgA", "inst1", "mod1", 1, 1, 1⟩]

/-- A single-region compare aggregate with a different group triple. -/
def singleRegionComp : List AggRow := [⟨"EU", "pgB", "inst1", "mod1", 2, 2, 2⟩]

/-- A baseline aggregate equal to its compare counterpart: every delta is `0`
and nothing gets flagged. -/
def quietBase : List AggRow := [⟨"EU", "pg1", "inst1", "mod1", 100, 50, 10⟩]

/-- The compare side matching `quietBase` exactly. -/
def quietComp : List AggRow := [⟨"EU", "pg1", "inst1", "mod1", 100, 50, 10⟩]

/-- The dataframe of the quiet run. -/
def quietDf : List DfRow := dfOf quietBase quietComp

/-- The single row `dfOf quietBase quietComp` evaluates to. -/
def quietRow : DfRow :=
  ⟨"EU", "pg1", "inst1", "mod1", 100, 100, 50, 50, 10, 10, 0, 0, 0, some 0, some 0, some 0⟩

/-- A flagged row with a large base and a 30% raw-hours rise
(`pct` stored ×100, as in the flagged frame). -/
def uneqRow1 : DfRow :=
  ⟨"EU", "G", "i1", "m1", 100, 130, 1, 1, 1, 1, 30, 0, 0, some 30, some 0, some 0⟩

/-- A flagged row of the same group with a tenth of the base volume and no
change. -/
def uneqRow2 : DfRow :=
  ⟨"EU", "G", "i2", "m1", 10, 10, 1, 1, 1, 1, 0, 0, 0, some 0, some 0, some 0⟩

/-- A flagged set with one group whose two rows have unequal base volumes. -/
def uneqFlagged : List DfRow := [uneqRow1, uneqRow2]

/-- A flagged row of model `mX` with CPU percentage `+300` and delta `+100`. -/
def mixRow1 : DfRow :=
  ⟨"EU", "G", "i1", "mX", 1, 1, 10, 110, 1, 1, 0, 100, 0, some 0, some 300, some 0⟩

/-- A flagged row of model `mX` with CPU percentage `-300` and delta `-100`. -/
def mixRow2 : DfRow :=
  ⟨"EU", "G", "i2", "mX", 1, 1, 200, 100, 1, 1, 0, -100, 0, some 0, some (-300), some 0⟩

/-- A flagged set whose single model has CPU changes of opposite sign. -/
def mixFlagged : List DfRow := [mixRow1, mixRow2]

/-- A flagged row of group `A`: weighted raw percentage `50`, the other two `0`. -/
def tieRowA : DfRow :=
  ⟨"EU", "A", "i1", "m1", 100, 150, 1, 1, 1, 1, 50, 0, 0, some 50, some 0, some 0⟩

/-- A flagged row of group `B` with the same numbers as `tieRowA`. -/
def tieRowB : DfRow :=
  ⟨"EU", "B", "i1", "m1", 100, 150, 1, 1, 1, 1, 50, 0, 0, some 50, some 0, some 0⟩

/-- A flagged set producing two parameter groups with equal
`total_weighted_abs`. -/
def tieFlagged : List DfRow := [tieRowA, tieRowB]

/-- The `param_var` entry of group `A` on `tieFlagged`. -/
def tieEntryA : ParamVarRow := ⟨"A", some 50, some 0, some 0⟩

/-- The `param_var` entry of group `B` on `tieFlagged`. -/
def tieEntryB : ParamVarRow := ⟨"B", some 50, some 0, some 0⟩

/-- A compare-only style row: zero bases (undefined percentages) and a raw
delta of `30`, flagged through the delta leg alone. -/
def zeroBaseRow : DfRow :=
  ⟨"EU", "Z", "i1", "m1", 0, 30, 0, 0, 0, 0, 30, 0, 0, none, none, none⟩

/-- A raw record whose `calc_node_raw_hours` is `NULL` and whose
`security_count_thousands` is `NaN`. -/
def nullMetricRow : MetricRow :=
  ⟨"EU", "2025-10-01", "pg1", "inst1", "mod1", DVal.null, DVal.num 5, DVal.nan⟩

/-- Two records of one group: a numeric cell and a `NULL` cell per metric mix. -/
def mixedNullRows : List MetricRow :=
  [⟨"EU", "2025-10-01", "pg1", "inst1", "mod1", DVal.num 5, DVal.num 1, DVal.num 2⟩,
    ⟨"EU", "2025-10-01", "pg1", "inst1", "mod1", DVal.null, DVal.num 1, DVal.num 2⟩]

/-- The aggregate row `aggregateSnapshot mixedNullRows "2025-10-01" none`
produces. -/
def mixedNullAgg : AggRowD :=
  ⟨"EU", "pg1", "inst1", "mod1", DVal.num 5, DVal.num 2, DVal.num 4⟩

end BatchVariance

namespace MetadataPipeline

/-!
Embedding of `src/Analytics/metadata_pipeline/metadata_auto_loader.py`.

The S3 listing (`glob(...)` over `s3://…`) and the parquet footer reader
(`parquet_metadata(...)`) are external I/O; their results are inputs of the
model (`S3Env`).  The catalog table `parquet_file_metadata` keys rows by the
`file_name` PRIMARY KEY; the columns relevant to the sync logic are
`table_name`, `file_name`, `file_size` and `eod_date` (the per-row-group
column statistics ride along with the file row and play no part in which rows
a sync touches, so they are not modelled field by field). -/

/-- One catalog row of `parquet_file_metadata` (the fields the sync logic
reads or writes). -/
structure MetaRow where
  table_name : String
  file_name : String
  file_size : ℤ
  eod_date : String
deriving DecidableEq, Repr

/-- One S3 object as returned by `glob`: its path and size. -/
structure S3File where
  path : String
  size : ℤ
deriving DecidableEq, Repr

/-- The external world: `tables` is the result of `discover_tables`,
`partitionDirs t` the glob of `<root>/<t>/region=*/eod_date=*/`, and
`partFiles t d` the glob of `<root>/<t>/region=*/eod_date=<d>/*.parquet`. -/
structure S3Env where
  tables : List String
  partitionDirs : String → List String
  partFiles : String → String → List S3File

/-- `startsWithL hay pat`: does `hay` start with `pat`? -/
def startsWithL : List Char → List Char → Bool
  | _, [] => true
  | [], _ :: _ => false
  | a :: hay, b :: pat => a = b && startsWithL hay pat

/-- Does `hay` contain `pat` as a contiguous run? -/
def hasSub (pat : List Char) : List Char → Bool
  | [] => startsWithL [] pat
  | c :: rest => startsWithL (c :: rest) pat || hasSub pat rest

/-- The text matched by the capture group of the pattern
`r"eod_date=(\\d{4}-\\d{2}-\\d{2})"` of `discover_s3_eod_dates`: inside the
*raw* Python string, `\\d` is a regex-escaped backslash followed by a literal
`d`, so the group matches exactly the fixed text `\dddd-\dd-\dd` — a real
partition path segment `eod_date=2025-10-01` never matches. -/
def buggyDateCapture : String := "\\dddd-\\dd-\\dd"

/-- `df["file"].str.extract(r"eod_date=(\\d{4}-\\d{2}-\\d{2})")` on one path:
`some` of the captured text when the (degenerate, fixed-text) pattern occurs
in the path, `none` (pandas `NaN`) otherwise. -/
def extractEodDate (path : String) : Option String :=
  if hasSub ("eod_date=" ++ buggyDateCapture).data path.data then some buggyDateCapture
  else none

/-- `discover_s3_eod_dates` (lines 61–65): extract the date from every
partition directory path, drop the misses, and return the sorted distinct
values. -/
def discoverS3EodDates (dirs : List String) : List String :=
  List.insertionSort BatchVariance.strLeP (dirs.filterMap extractEodDate).dedup

/-- `discover_existing_eod_dates` (lines 68–70): the sorted distinct
`eod_date` values the catalog holds for one table. -/
def existingEodDates (catalog : List MetaRow) (table : String) : List String :=
  List.insertionSort BatchVariance.strLeP
    ((catalog.filter fun r => r.table_name == table).map fun r => r.eod_date).dedup

/-- `update_metadata_for_table_date` (lines 74–113): list the partition's
files; bail out when there are none; keep the files that are absent from the
catalog rows of this `(table, eod_date)` or whose size changed; insert their
metadata with `INSERT OR REPLACE` (the `file_name` PRIMARY KEY evicts any row
with the same path). -/
def updateMetadataForTableDate (env : S3Env) (catalog : List MetaRow)
    (table eod_date : String) : List MetaRow :=
  let files := env.partFiles table eod_date
  if files.isEmpty then catalog
  else
    let existing := catalog.filter fun r => r.table_name == table && r.eod_date == eod_date
    let new_files := files.filter fun f =>
      match existing.find? fun r => r.file_name == f.path with
      | none => true
      | some r => f.size != r.file_size
    if new_files.isEmpty then catalog
    else
      (catalog.filter fun r => !(new_files.any fun f => f.path == r.file_name)) ++
        new_files.map fun f =>
          { table_name := table, file_name := f.path, file_size := f.size, eod_date := eod_date }

/-- The outcome of a sync run: the `(table, eod_date)` pairs the orchestrator
passed to `update_metadata_for_table_date`, and the final catalog. -/
structure SyncResult where
  invoked : List (String × String)
  catalog : List MetaRow
deriving Repr

/-- The inner loop of `auto_update_all_metadata` (lines 132–133): one
per-date update per missing date, in order. -/
def runDates (env : S3Env) (table : String) : List String → SyncResult → SyncResult
  | [], acc => acc
  | d :: ds, acc =>
    runDates env table ds
      { invoked := acc.invoked ++ [(table, d)]
        catalog := updateMetadataForTableDate env acc.catalog table d }

/-- One iteration of the table loop (lines 122–133): discover the partition
dates in S3 and the dates the catalog already has, and update each date of
the difference.  `sorted(list(set(s3_dates) - set(existing_dates)))` is the
ascending enumeration of the difference; since `discoverS3EodDates` is
already sorted and distinct, that is its sublist of dates not yet known. -/
def runTable (env : S3Env) (acc : SyncResult) (table : String) : SyncResult :=
  let s3_dates := discoverS3EodDates (env.partitionDirs table)
  let existing_dates := existingEodDates acc.catalog table
  let missing_dates := s3_dates.filter fun d => !existing_dates.contains d
  runDates env table missing_dates acc

/-- `auto_update_all_metadata` (lines 117–135), starting from a given catalog
state. -/
def autoUpdateAllMetadata (env : S3Env) (catalog : List MetaRow) : SyncResult :=
  env.tables.foldl (runTable env) { invoked := [], catalog := catalog }

/-- A catalog row already present before the example sync run. -/
def exMetaRow : MetaRow := ⟨"t1", "pathX", 3, "2025-10-01"⟩

/-- An example catalog holding `exMetaRow`. -/
def exCatalog : List MetaRow := [exMetaRow]

/-- An example S3 world with one table and no visible objects. -/
def exEnv : S3Env :=
  { tables := ["t1"], partitionDirs := fun _ => [], partFiles := fun _ _ => [] }

end MetadataPipeline

namespace BatchVariance

/-! ## Helper lemmas -/

/-- Membership in the sorted distinct group keys is membership in the key
column. -/
theorem mem_sortedKeys {s : String} {l : List String} : s ∈ sortedKeys l ↔ s ∈ l := by
  unfold sortedKeys
  rw [(List.perm_insertionSort strLeP l.dedup).mem_iff, List.mem_dedup]

/-! ## C5 -/

/-- C5: for every joined row and each of the three metrics, the per-metric
flag is true exactly when `|pct| > pct_threshold` or `|delta|` exceeds that
metric's delta threshold; an undefined percentage (`NULL`, from a zero base)
never trips the percentage leg, so such a row can be flagged only through the
delta leg; and the combined flag is the disjunction of the three per-metric
flags. -/
theorem C5_threshold_or_semantics (th : Thresholds) (r : DfRow) :
    (raw_var_flag th r = true ↔
      ((∃ x, r.pct_raw_hours = some x ∧ |x| > th.pct) ∨ |r.delta_raw_hours| > th.raw)) ∧
    (cpu_var_flag th r = true ↔
      ((∃ x, r.pct_model_cpu_hours = some x ∧ |x| > th.pct) ∨
        |r.delta_model_cpu_hours| > th.cpu)) ∧
    (sec_var_flag th r = true ↔
      ((∃ x, r.pct_security_thousands = some x ∧ |x| > th.pct) ∨
        |r.delta_security_thousands| > th.sec)) ∧
    (r.pct_raw_hours = none →
      (raw_var_flag th r = true ↔ |r.delta_raw_hours| > th.raw)) ∧
    (any_metric_flag th r = true ↔
      (raw_var_flag th r = true ∨ cpu_var_flag th r = true ∨ sec_var_flag th r = true)) := by
  refine ⟨?_, ?_, ?_, ?_, ?_⟩
  · cases hp : r.pct_raw_hours <;> simp [raw_var_flag, absGt, hp]
  · cases hp : r.pct_model_cpu_hours <;> simp [cpu_var_flag, absGt, hp]
  · cases hp : r.pct_security_thousands <;> simp [sec_var_flag, absGt, hp]
  · intro hp; simp [raw_var_flag, absGt, hp]
  · simp [any_metric_flag, Bool.or_eq_true, or_assoc]

/-- C5 witness: a zero-base row (undefined percentages) is judged on the
delta leg alone. -/
theorem C5_threshold_or_semantics_witness :
    raw_var_flag defaultThresholds zeroBaseRow = true ↔
      |zeroBaseRow.delta_raw_hours| > defaultThresholds.raw :=
  (C5_threshold_or_semantics defaultThresholds zeroBaseRow).2.2.2.1 rfl

/-! ## C7 -/

/-- C7: in every row of the joined dataframe, each percentage column is the
delta divided by the base when the base is nonzero, and the explicit `NULL`
sentinel exactly when the base is zero — never a silent `0` and never an
infinity, so the division is only ever performed with a nonzero divisor. -/
theorem C7_pct_undefined_iff_zero_base (bs cs : List AggRow) (r : DfRow)
    (hr : r ∈ dfOf bs cs) :
    ((r.pct_raw_hours = none ↔ r.base_raw_hours = 0) ∧
      (r.base_raw_hours ≠ 0 →
        r.pct_raw_hours = some (r.delta_raw_hours / r.base_raw_hours))) ∧
    ((r.pct_model_cpu_hours = none ↔ r.base_model_cpu_hours = 0) ∧
      (r.base_model_cpu_hours ≠ 0 →
        r.pct_model_cpu_hours = some (r.delta_model_cpu_hours / r.base_model_cpu_hours))) ∧
    ((r.pct_security_thousands = none ↔ r.base_security_thousands = 0) ∧
      (r.base_security_thousands ≠ 0 →
        r.pct_security_thousands =
          some (r.delta_security_thousands / r.base_security_thousands))) := by
  obtain ⟨j, _, rfl⟩ := List.mem_map.mp hr
  refine ⟨⟨?_, ?_⟩, ⟨?_, ?_⟩, ⟨?_, ?_⟩⟩
  · simp only [selectRow]; split <;> simp_all
  · intro h; simp only [selectRow] at h ⊢; simp [if_neg h]
  · simp only [selectRow]; split <;> simp_all
  · intro h; simp only [selectRow] at h ⊢; simp [if_neg h]
  · simp only [selectRow]; split <;> simp_all
  · intro h; simp only [selectRow] at h ⊢; simp [if_neg h]

/-- Evaluation of the quiet run's dataframe: one identical-sides row. -/
theorem quietDf_eval : dfOf quietBase quietComp = [quietRow] := by
  norm_num [dfOf, quietBase, quietComp, fullOuterJoin, joinCond, selectRow,
    mkJoinedBC, quietRow]

/-- C7 witness: the quiet row's raw percentage is defined (base 100 ≠ 0) and
equals delta over base. -/
theorem C7_pct_undefined_iff_zero_base_witness :
    quietRow.pct_raw_hours = some (quietRow.delta_raw_hours / quietRow.base_raw_hours) :=
  ((C7_pct_undefined_iff_zero_base quietBase quietComp quietRow
    (by simp [quietDf_eval])).1).2 (by decide)

/-! ## C8 -/

/-- C8: the flagging step appends flag columns without altering any existing
column of any row; the ×100 rescaling produces exactly the rows whose
combined flag is true (each the `scale100` image of a flagged dataframe row,
and every flagged row is represented); and `scale100` multiplies the three
percentage columns by 100 while leaving every other column unchanged —
unflagged rows are never rescaled. -/
theorem C8_rescale_only_flagged_rows (th : Thresholds) (df : List DfRow) :
    ((withFlags th df).map Prod.fst = df) ∧
    (∀ x ∈ flaggedOf th df, ∃ r ∈ df, any_metric_flag th r = true ∧ x = scale100 r) ∧
    (∀ r ∈ df, any_metric_flag th r = true → scale100 r ∈ flaggedOf th df) ∧
    (∀ r : DfRow,
      (scale100 r).region = r.region ∧ (scale100 r).parameter_group = r.parameter_group ∧
      (scale100 r).instance_name = r.instance_name ∧ (scale100 r).model_name = r.model_name ∧
      (scale100 r).base_raw_hours = r.base_raw_hours ∧
      (scale100 r).comp_raw_hours = r.comp_raw_hours ∧
      (scale100 r).base_model_cpu_hours = r.base_model_cpu_hours ∧
      (scale100 r).comp_model_cpu_hours = r.comp_model_cpu_hours ∧
      (scale100 r).base_security_thousands = r.base_security_thousands ∧
      (scale100 r).comp_security_thousands = r.comp_security_thousands ∧
      (scale100 r).delta_raw_hours = r.delta_raw_hours ∧
      (scale100 r).delta_model_cpu_hours = r.delta_model_cpu_hours ∧
      (scale100 r).delta_security_thousands = r.delta_security_thousands ∧
      (scale100 r).pct_raw_hours = r.pct_raw_hours.map (· * 100) ∧
      (scale100 r).pct_model_cpu_hours = r.pct_model_cpu_hours.map (· * 100) ∧
      (scale100 r).pct_security_thousands = r.pct_security_thousands.map (· * 100)) := by
  refine ⟨?_, ?_, ?_, ?_⟩
  · simp [withFlags, Function.comp_def]
  · intro x hx
    obtain ⟨r, hr, rfl⟩ := List.mem_map.mp hx
    exact ⟨r, (List.mem_filter.mp hr).1, (List.mem_filter.mp hr).2, rfl⟩
  · intro r hr hf
    exact List.mem_map.mpr ⟨r, List.mem_filter.mpr ⟨hr, hf⟩, rfl⟩
  · intro r
    exact ⟨rfl, rfl, rfl, rfl, rfl, rfl, rfl, rfl, rfl, rfl, rfl, rfl, rfl, rfl, rfl, rfl⟩

/-- C8 witness: the delta-flagged zero-base row is rescaled into the flagged
frame. -/
theorem C8_rescale_only_flagged_rows_witness :
    scale100 zeroBaseRow ∈ flaggedOf defaultThresholds [zeroBaseRow] :=
  (C8_rescale_only_flagged_rows defaultThresholds [zeroBaseRow]).2.2.1 zeroBaseRow
    (List.mem_singleton.mpr rfl) (by decide)

/-! ## C2 -/

/-- C2: the quiet run joins one row, flags nothing, and the computation does
*not* return empty rollups — the parameter-group rollup step fails on the
empty flagged frame (pandas `groupby(...).apply` on an empty frame yields a
frame without the `weighted_pct_*` columns, so the subsequent `reset_index`
and column selection raise), contradicting the claim. -/
theorem C2_empty_flagged_set_raises :
    dfOf quietBase quietComp ≠ [] ∧
    flaggedOf defaultThresholds (dfOf quietBase quietComp) = [] ∧
    rollupsOf defaultThresholds (dfOf quietBase quietComp) =
      .error "empty groupby-apply result has no weighted_pct columns" := by
  have hfl : flaggedOf defaultThresholds (dfOf quietBase quietComp) = [] := by
    rw [quietDf_eval]
    norm_num [flaggedOf, any_metric_flag, raw_var_flag, cpu_var_flag, sec_var_flag, absGt,
      quietRow, defaultThresholds]
  refine ⟨by simp [quietDf_eval], hfl, ?_⟩
  simp [rollupsOf, hfl, paramVarResult, Bind.bind, Except.bind]

/-! ## C3 -/

/-- C3: on a non-empty flagged set the parameter-group rollup succeeds; every
flagged row's group is represented; each group's `weighted_pct_X` is
`Σ(delta_X)/Σ(base_X) × 100` when `Σ(base_X) ≠ 0` and the `NaN` sentinel when
`Σ(base_X) = 0`, for each of the three metrics independently; and on the
unequal-base example the weighted raw percentage (`300/11`) differs from the
arithmetic mean of the rows' individual percentages (`15`). -/
theorem C3_weighted_pct_formula (flagged : List DfRow) (hne : flagged ≠ []) :
    paramVarResult flagged = .ok (paramVarTop5 flagged) ∧
    (∀ r ∈ flagged, ∃ e ∈ paramVarRows flagged, e.parameter_group = r.parameter_group) ∧
    (∀ e ∈ paramVarRows flagged,
      ((qsum ((flagged.filter fun r => r.parameter_group = e.parameter_group).map
            fun r => r.base_raw_hours) ≠ 0 →
          e.weighted_pct_raw = some
            (qsum ((flagged.filter fun r => r.parameter_group = e.parameter_group).map
                fun r => r.delta_raw_hours) /
              qsum ((flagged.filter fun r => r.parameter_group = e.parameter_group).map
                fun r => r.base_raw_hours) * 100)) ∧
        (qsum ((flagged.filter fun r => r.parameter_group = e.parameter_group).map
            fun r => r.base_raw_hours) = 0 → e.weighted_pct_raw = none)) ∧
      ((qsum ((flagged.filter fun r => r.parameter_group = e.parameter_group).map
            fun r => r.base_model_cpu_hours) ≠ 0 →
          e.weighted_pct_cpu = some
            (qsum ((flagged.filter fun r => r.parameter_group = e.parameter_group).map
                fun r => r.delta_model_cpu_hours) /
              qsum ((flagged.filter fun r => r.parameter_group = e.parameter_group).map
                fun r => r.base_model_cpu_hours) * 100)) ∧
        (qsum ((flagged.filter fun r => r.parameter_group = e.parameter_group).map
            fun r => r.base_model_cpu_hours) = 0 → e.weighted_pct_cpu = none)) ∧
      ((qsum ((flagged.filter fun r => r.parameter_group = e.parameter_group).map
            fun r => r.base_security_thousands) ≠ 0 →
          e.weighted_pct_sec = some
            (qsum ((flagged.filter fun r => r.parameter_group = e.parameter_group).map
                fun r => r.delta_security_thousands) /
              qsum ((flagged.filter fun r => r.parameter_group = e.parameter_group).map
                fun r => r.base_security_thousands) * 100)) ∧
        (qsum ((flagged.filter fun r => r.parameter_group = e.parameter_group).map
            fun r => r.base_security_thousands) = 0 → e.weighted_pct_sec = none))) ∧
    ((paramVarRows uneqFlagged).map (fun e => e.weighted_pct_raw) = [some (300 / 11)] ∧
      meanQ (uneqFlagged.filterMap fun r => r.pct_raw_hours) = some 15 ∧
      (300 / 11 : ℚ) ≠ 15) := by
  refine ⟨?_, ?_, ?_, ?_⟩
  · simp [paramVarResult, List.isEmpty_iff, hne]
  · intro r hr
    exact ⟨_, List.mem_map.mpr ⟨r.parameter_group,
      mem_sortedKeys.mpr (List.mem_map.mpr ⟨r, hr, rfl⟩), rfl⟩, rfl⟩
  · intro e he
    obtain ⟨pg, _, rfl⟩ := List.mem_map.mp he
    refine ⟨⟨?_, ?_⟩, ⟨?_, ?_⟩, ⟨?_, ?_⟩⟩ <;> intro h <;>
      simp only [paramVarRows, weighted_pct] at h ⊢ <;> first
        | rw [if_pos h]
        | rw [if_neg (by simpa using h)]
  · refine ⟨?_, ?_, by norm_num⟩
    · norm_num [paramVarRows, sortedKeys, uneqFlagged, uneqRow1, uneqRow2, weighted_pct,
        qsum, strLeP, strLe, lexLe, List.insertionSort, List.orderedInsert]
    · have h2 : ([30, 0] : List ℚ) ≠ [] := by simp
      norm_num [meanQ, qsum, uneqFlagged, uneqRow1, uneqRow2, List.filterMap_cons,
        List.filterMap_nil, h2]

/-- C3 witness: the rollup succeeds on the non-empty unequal-base flagged
set. -/
theorem C3_weighted_pct_formula_witness :
    paramVarResult uneqFlagged = .ok (paramVarTop5 uneqFlagged) :=
  (C3_weighted_pct_formula uneqFlagged (by simp [uneqFlagged])).1

/-! ## C6 -/

/-- Evaluation of the rollup rows of the tied example: groups `A` then `B`,
in sorted group-key order. -/
theorem paramVarRows_tieFlagged : paramVarRows tieFlagged = [tieEntryA, tieEntryB] := by
  have hkeys : sortedKeys (tieFlagged.map fun r => r.parameter_group) = ["A", "B"] := by decide
  have hfA : tieFlagged.filter (fun r => decide (r.parameter_group = "A")) = [tieRowA] := by
    decide
  have hfB : tieFlagged.filter (fun r => decide (r.parameter_group = "B")) = [tieRowB] := by
    decide
  rw [paramVarRows, hkeys]
  simp only [List.map_cons, List.map_nil, hfA, hfB]
  norm_num [weighted_pct, qsum, tieEntryA, tieEntryB, tieRowA, tieRowB]

/-- C6 counterexample: the two groups of `tieFlagged` have equal
`total_weighted_abs` and enter the ranking as `[A, B]`, but the top-5 output
is `[B, A]` — the relative order of the tied groups is *not* preserved. -/
theorem C6_tie_order_counterexample :
    (paramVarRows tieFlagged).map (fun e => e.parameter_group) = ["A", "B"] ∧
    (paramVarRows tieFlagged).map total_weighted_abs = [50, 50] ∧
    (paramVarTop5 tieFlagged).map (fun e => e.parameter_group) = ["B", "A"] := by
  refine ⟨by rw [paramVarRows_tieFlagged]; rfl, ?_, ?_⟩
  · rw [paramVarRows_tieFlagged]
    norm_num [total_weighted_abs, tieEntryA, tieEntryB]
  · rw [paramVarTop5, paramVarRows_tieFlagged]
    norm_num [sortDescBy, sortAscBy, List.insertionSort, List.orderedInsert,
      total_weighted_abs, tieEntryA, tieEntryB]

/-- C6 (amended): the pandas descending sort is the reversal of a stable
ascending sort, so two rollup groups with equal `total_weighted_abs` appear in
the ranking in the *reverse* of their order in the unsorted rollup input, and
the top-5 output is the 5-prefix of that reversed ranking. -/
theorem C6_equal_totals_order_reversed (flagged : List DfRow) (a b : ParamVarRow)
    (heq : total_weighted_abs a = total_weighted_abs b)
    (hab : [a, b].Sublist (paramVarRows flagged)) :
    [b, a].Sublist (sortDescBy total_weighted_abs (paramVarRows flagged)) ∧
    paramVarTop5 flagged = (sortDescBy total_weighted_abs (paramVarRows flagged)).take 5 := by
  refine ⟨?_, rfl⟩
  have h1 : [a, b].Sublist (sortAscBy total_weighted_abs (paramVarRows flagged)) :=
    List.pair_sublist_insertionSort (le_of_eq heq) hab
  simpa [sortDescBy] using h1.reverse

/-- C6 witness: on the tied example, group `B` precedes group `A` in the
descending ranking. -/
theorem C6_equal_totals_order_reversed_witness :
    [tieEntryB, tieEntryA].Sublist (sortDescBy total_weighted_abs (paramVarRows tieFlagged)) :=
  (C6_equal_totals_order_reversed tieFlagged tieEntryA tieEntryB rfl
    (by rw [paramVarRows_tieFlagged])).1

/-! ## C4 -/

/-- The `isNone` filter is the complement of the `isSome` filter. -/
theorem filter_isNone_eq {α : Type} (key : α → Option ℚ) (l : List α) :
    l.filter (fun a => (key a).isNone) = l.filter (fun a => !(key a).isSome) := by
  apply List.filter_congr
  intro a _
  cases key a <;> rfl

/-- The NaN-last descending sort permutes its input. -/
theorem sortDescNaLast_perm {α : Type} (key : α → Option ℚ) (l : List α) :
    (sortDescNaLast key l).Perm l := by
  have h1 : (sortDescBy (fun a => (key a).getD 0) (l.filter fun a => (key a).isSome)).Perm
      (l.filter fun a => (key a).isSome) := by
    unfold sortDescBy sortAscBy
    exact (List.reverse_perm _).trans (List.perm_insertionSort _ _)
  unfold sortDescNaLast
  refine List.Perm.trans (h1.append_right _) ?_
  rw [filter_isNone_eq]
  exact List.filter_append_perm _ l

/-- The reversal of the ascending insertion sort on the defaulted key is
pairwise descending. -/
theorem pairwise_desc_getD (l : List ModelVarRow) :
    ((sortAscBy (fun r => (r.pct_model_cpu_hours).getD 0) l).reverse).Pairwise
      (fun a b => (b.pct_model_cpu_hours).getD 0 ≤ (a.pct_model_cpu_hours).getD 0) := by
  rw [List.pairwise_reverse]
  unfold sortAscBy
  haveI : IsTotal ModelVarRow
      (fun a b => (a.pct_model_cpu_hours).getD 0 ≤ (b.pct_model_cpu_hours).getD 0) :=
    ⟨fun a b => le_total _ _⟩
  haveI : IsTrans ModelVarRow
      (fun a b => (a.pct_model_cpu_hours).getD 0 ≤ (b.pct_model_cpu_hours).getD 0) :=
    ⟨fun _ _ _ hab hbc => le_trans hab hbc⟩
  exact List.sorted_insertionSort _ l

/-- The `model_var` table is ranked descending by the aggregated percentage,
`NaN` keys last. -/
theorem pairwise_rankGe_modelVarTable (flagged : List DfRow) :
    (modelVarTable flagged).Pairwise rankGe := by
  simp only [modelVarTable]
  refine List.Pairwise.sublist (List.take_sublist _ _) ?_
  unfold sortDescNaLast sortDescBy
  refine List.pairwise_append.mpr ⟨?_, ?_, ?_⟩
  · refine (pairwise_desc_getD _).imp_of_mem ?_
    intro a b ha hb hle
    have ha' : a.pct_model_cpu_hours.isSome = true := by
      have h1 := (List.perm_insertionSort _ _).mem_iff.mp (List.mem_reverse.mp ha)
      exact (List.mem_filter.mp h1).2
    have hb' : b.pct_model_cpu_hours.isSome = true := by
      have h1 := (List.perm_insertionSort _ _).mem_iff.mp (List.mem_reverse.mp hb)
      exact (List.mem_filter.mp h1).2
    obtain ⟨x, hx⟩ := Option.isSome_iff_exists.mp ha'
    obtain ⟨y, hy⟩ := Option.isSome_iff_exists.mp hb'
    right
    refine ⟨x, y, hx, hy, ?_⟩
    simpa [hx, hy] using hle
  · refine List.pairwise_of_forall_mem_list ?_
    intro a _ b hb
    exact Or.inl (Option.isNone_iff_eq_none.mp (List.mem_filter.mp hb).2)
  · intro a _ b hb
    exact Or.inl (Option.isNone_iff_eq_none.mp (List.mem_filter.mp hb).2)

/-- C4 counterexample: for a model whose flagged rows have CPU percentages
`+300` and `-300` (deltas `+100` and `-100`), the code's rollup reports
`|mean| = 0` and `|sum| = 0`, while the claim's mean of absolute percentages
is `300` and sum of absolute deltas is `200`. -/
theorem C4_model_rollup_counterexample :
    (modelVarTable mixFlagged).map
        (fun e => (e.model_name, e.pct_model_cpu_hours, e.delta_model_cpu_hours)) =
      [("mX", some 0, 0)] ∧
    specModelMeanAbsPct mixFlagged = some 300 ∧
    specModelSumAbsDelta mixFlagged = 200 ∧
    some (0 : ℚ) ≠ some (300 : ℚ) ∧ (0 : ℚ) ≠ 200 := by
  have hkeys : sortedKeys (mixFlagged.map fun r => r.model_name) = ["mX"] := by decide
  have hf : mixFlagged.filter (fun r => decide (r.model_name = "mX")) = [mixRow1, mixRow2] := by
    decide
  refine ⟨?_, ?_, ?_, by norm_num, by norm_num⟩
  · simp only [modelVarTable, hkeys, List.map_cons, List.map_nil, hf]
    have hne1 : ([300, -300] : List ℚ) ≠ [] := by simp
    norm_num [modelVarRow, meanQ, qsum, mixRow1, mixRow2, List.filterMap_cons,
      List.filterMap_nil, sortDescNaLast, sortDescBy, sortAscBy, List.insertionSort,
      List.orderedInsert, hne1]
  · have hne2 : ([300, 300] : List ℚ) ≠ [] := by simp
    norm_num [specModelMeanAbsPct, meanQ, qsum, mixFlagged, mixRow1, mixRow2,
      List.filterMap_cons, List.filterMap_nil, hne2]
  · norm_num [specModelSumAbsDelta, qsum, mixFlagged, mixRow1, mixRow2]

/-- C4 (amended): each `model_var` entry holds the *absolute value of the
mean* of its model's CPU percentages (`NaN`-skipping mean, `NaN` when no
percentage is defined) and the *absolute value of the sum* of its CPU deltas
— not the mean of absolute values and sum of absolute values — and the table
is ranked descending by that aggregated percentage (`NaN` keys last) with at
most 5 entries kept. -/
theorem C4_model_rollup_abs_after_agg (flagged : List DfRow) (hne : flagged ≠ []) :
    (∀ e ∈ modelVarTable flagged,
      e.pct_model_cpu_hours =
        (meanQ ((flagged.filter fun r => r.model_name = e.model_name).filterMap
          fun r => r.pct_model_cpu_hours)).map abs ∧
      e.delta_model_cpu_hours =
        |qsum ((flagged.filter fun r => r.model_name = e.model_name).map
          fun r => r.delta_model_cpu_hours)|) ∧
    (modelVarTable flagged).length ≤ 5 ∧
    (modelVarTable flagged).Pairwise rankGe := by
  refine ⟨?_, ?_, pairwise_rankGe_modelVarTable flagged⟩
  · intro e he
    simp only [modelVarTable] at he
    have h1 := (sortDescNaLast_perm _ _).mem_iff.mp (List.mem_of_mem_take he)
    obtain ⟨m, _, rfl⟩ := List.mem_map.mp h1
    exact ⟨rfl, rfl⟩
  · simp only [modelVarTable]
    exact List.length_take_le _ _

/-- C4 witness: the mixed-sign example's rollup is within the top-5 bound. -/
theorem C4_model_rollup_abs_after_agg_witness :
    (modelVarTable mixFlagged).length ≤ 5 :=
  (C4_model_rollup_abs_after_agg mixFlagged (by simp [mixFlagged])).2.1

/-! ## C1 -/

/-- The ON condition holds exactly when the two rows share their non-region
grouping triple. -/
theorem joinCond_iff (b c : AggRow) : joinCond b c ↔ tripleKey b = tripleKey c := by
  unfold joinCond tripleKey
  simp [Prod.ext_iff]

/-- Filtering a list with duplicate-free keys for one key value yields nothing
or a single element. -/
theorem filter_key_nil_or_singleton {α β : Type} [DecidableEq β] (f : α → β) (t : β) :
    ∀ (l : List α), (l.map f).Nodup →
      (l.filter fun x => decide (f x = t)) = [] ∨
        ∃ x, x ∈ l ∧ f x = t ∧ (l.filter fun x => decide (f x = t)) = [x]
  | [], _ => Or.inl rfl
  | x :: l, h => by
    rw [List.map_cons, List.nodup_cons] at h
    by_cases hx : f x = t
    · right
      refine ⟨x, List.mem_cons_self x l, hx, ?_⟩
      rw [List.filter_cons_of_pos (by simp [hx])]
      have h0 : (l.filter fun y => decide (f y = t)) = [] := by
        rw [List.filter_eq_nil_iff]
        intro y hy
        simp only [decide_eq_true_eq]
        intro hft
        exact h.1 (List.mem_map.mpr ⟨y, hy, by rw [hft, hx]⟩)
      rw [h0]
    · rcases filter_key_nil_or_singleton f t l h.2 with h0 | ⟨y, hy, hft, hfl⟩
      · exact Or.inl (by rw [List.filter_cons_of_neg (by simp [hx]), h0])
      · exact Or.inr ⟨y, List.mem_cons_of_mem _ hy, hft,
          by rw [List.filter_cons_of_neg (by simp [hx]), hfl]⟩

/-- The matched part of the join contributes the baseline GroupKey of every
matched baseline row, once each, when the compare side's triples are
duplicate-free. -/
theorem flatMap_matched_keys (bs cs : List AggRow) (hc : (cs.map tripleKey).Nodup) :
    (bs.flatMap fun b =>
        ((cs.filter fun c => decide (joinCond b c)).map fun c => mkJoinedBC b c)).map groupKey =
      (bs.filter fun b => cs.any fun c => decide (joinCond b c)).map aggKey := by
  induction bs with
  | nil => rfl
  | cons b bs ih =>
    have hfilter : (cs.filter fun c => decide (joinCond b c)) =
        cs.filter fun c => decide (tripleKey c = tripleKey b) := by
      apply List.filter_congr
      intro c _
      exact decide_eq_decide.mpr ((joinCond_iff b c).trans eq_comm)
    rw [List.flatMap_cons, List.map_append, ih, List.filter_cons]
    rcases filter_key_nil_or_singleton tripleKey (tripleKey b) cs hc with h0 | ⟨c, hcm, hft, h1⟩
    · have hany : (cs.any fun c => decide (joinCond b c)) = false := by
        rw [List.any_eq_false]
        intro c hcmem
        simp only [decide_eq_true_eq]
        intro hbc
        have : c ∈ cs.filter fun c => decide (tripleKey c = tripleKey b) :=
          List.mem_filter.mpr ⟨hcmem, by simp [(joinCond_iff b c).mp hbc]⟩
        rw [h0] at this
        exact List.not_mem_nil c this
      rw [hfilter, h0, hany]
      simp
    · have hany : (cs.any fun c => decide (joinCond b c)) = true :=
        List.any_eq_true.mpr ⟨c, hcm, by simp [(joinCond_iff b c).mpr hft.symm]⟩
      rw [hfilter, h1, hany]
      simp [mkJoinedBC, groupKey, aggKey]

/-- The GroupKeys of the full outer join, decomposed into the three generating
parts. -/
theorem joinKeys_decomp (bs cs : List AggRow) (hc : (cs.map tripleKey).Nodup) :
    (fullOuterJoin bs cs).map groupKey =
      (bs.filter fun b => cs.any fun c => decide (joinCond b c)).map aggKey ++
      (bs.filter fun b => !(cs.any fun c => decide (joinCond b c))).map aggKey ++
      (cs.filter fun c => !(bs.any fun b => decide (joinCond b c))).map aggKey := by
  unfold fullOuterJoin
  rw [List.map_append, List.map_append, flatMap_matched_keys bs cs hc,
    List.map_map, List.map_map]
  rfl

/-- C1 counterexample: with no region filter and rows of two regions on both
sides (each side a valid, duplicate-free aggregate), the join emits two rows
for the GroupKey `("EU","pg1","inst1","mod1")` — the GroupKeys are not
duplicate-free, contradicting the claim. -/
theorem C1_multi_region_duplicate_keys :
    (multiRegionBase.map aggKey).Nodup ∧ (multiRegionComp.map aggKey).Nodup ∧
    ¬ ((fullOuterJoin multiRegionBase multiRegionComp).map groupKey).Nodup ∧
    ((fullOuterJoin multiRegionBase multiRegionComp).map groupKey).count
        ("EU", "pg1", "inst1", "mod1") = 2 := by
  refine ⟨by decide, by decide, by decide, by decide⟩

/-- C1 (amended): when both aggregates are duplicate-free per GroupKey and all
their rows carry one common region (e.g. a region filter was applied), the
join produces exactly one row per GroupKey of either side — duplicate-free
GroupKeys, and a GroupKey occurs in the output exactly when it occurs in the
baseline or the compare aggregate.  With rows of more than one region the
region-less ON clause breaks this (see the counterexample). -/
theorem C1_join_unique_keys_single_region (bs cs : List AggRow) (rg : String)
    (hb : (bs.map aggKey).Nodup) (hc : (cs.map aggKey).Nodup)
    (hrb : ∀ r ∈ bs, r.region = rg) (hrc : ∀ r ∈ cs, r.region = rg) :
    ((fullOuterJoin bs cs).map groupKey).Nodup ∧
      ∀ k, k ∈ (fullOuterJoin bs cs).map groupKey ↔
        (k ∈ bs.map aggKey ∨ k ∈ cs.map aggKey) := by
  have hct : (cs.map tripleKey).Nodup := by
    have h1 : cs.map aggKey = (cs.map tripleKey).map fun t => (rg, t) := by
      rw [List.map_map]
      exact List.map_congr_left fun r hr => by
        simp [aggKey, tripleKey, Function.comp, hrc r hr]
    exact List.Nodup.of_map _ (h1 ▸ hc)
  have hdecomp := joinKeys_decomp bs cs hct
  have h12 : ((bs.filter fun b => cs.any fun c => decide (joinCond b c)).map aggKey ++
      (bs.filter fun b => !(cs.any fun c => decide (joinCond b c))).map aggKey).Perm
        (bs.map aggKey) := by
    rw [← List.map_append]
    exact (List.filter_append_perm _ bs).map aggKey
  have haggInj : ∀ b ∈ bs, ∀ c ∈ cs, joinCond b c → aggKey b = aggKey c := by
    intro b hbm c hcm hbc
    obtain ⟨h1, h2, h3⟩ := hbc
    simp [aggKey, hrb b hbm, hrc c hcm, h1, h2, h3]
  have hn12 : ((bs.filter fun b => cs.any fun c => decide (joinCond b c)).map aggKey ++
      (bs.filter fun b => !(cs.any fun c => decide (joinCond b c))).map aggKey).Nodup :=
    h12.nodup_iff.mpr hb
  have hn3 : ((cs.filter fun c => !(bs.any fun b => decide (joinCond b c))).map aggKey).Nodup :=
    List.Nodup.sublist (List.Sublist.map _ (List.filter_sublist _)) hc
  have hdisj : ((bs.filter fun b => cs.any fun c => decide (joinCond b c)).map aggKey ++
      (bs.filter fun b => !(cs.any fun c => decide (joinCond b c))).map aggKey).Disjoint
        ((cs.filter fun c => !(bs.any fun b => decide (joinCond b c))).map aggKey) := by
    intro k hk hk3
    obtain ⟨b, hbm, rfl⟩ := List.mem_map.mp (h12.subset hk)
    obtain ⟨c, hcf, hkey⟩ := List.mem_map.mp hk3
    have hcm := (List.mem_filter.mp hcf).1
    have hnomatch := (List.mem_filter.mp hcf).2
    have htrip : tripleKey b = tripleKey c := by
      have h1 : aggKey c = aggKey b := hkey
      simp only [aggKey, Prod.mk.injEq] at h1
      simp [tripleKey, h1.2.1, h1.2.2.1, h1.2.2.2]
    have : (bs.any fun b => decide (joinCond b c)) = true :=
      List.any_eq_true.mpr ⟨b, hbm, by simp [(joinCond_iff b c).mpr htrip]⟩
    rw [this] at hnomatch
    exact absurd hnomatch (by simp)
  constructor
  · rw [hdecomp]
    exact hn12.append hn3 hdisj
  · intro k
    rw [hdecomp]
    constructor
    · intro hk
      rcases List.mem_append.mp hk with h1 | h3
      · exact Or.inl (h12.subset h1)
      · obtain ⟨c, hcf, hkey⟩ := List.mem_map.mp h3
        exact Or.inr (List.mem_map.mpr ⟨c, (List.mem_filter.mp hcf).1, hkey⟩)
    · intro hk
      rcases hk with hkb | hkc
      · refine List.mem_append.mpr (Or.inl ?_)
        obtain ⟨b, hbm, rfl⟩ := List.mem_map.mp hkb
        rcases hmatch : (cs.any fun c => decide (joinCond b c)) with _ | _
        · exact (h12.mem_iff).mpr (List.mem_map.mpr ⟨b, hbm, rfl⟩)
        · exact (h12.mem_iff).mpr (List.mem_map.mpr ⟨b, hbm, rfl⟩)
      · obtain ⟨c, hcm, rfl⟩ := List.mem_map.mp hkc
        rcases hmatch : (bs.any fun b => decide (joinCond b c)) with _ | _
        · refine List.mem_append.mpr (Or.inr ?_)
          exact List.mem_map.mpr ⟨c, List.mem_filter.mpr ⟨hcm, by simp [hmatch]⟩, rfl⟩
        · obtain ⟨b, hbm, hbc⟩ := List.any_eq_true.mp hmatch
          simp only [decide_eq_true_eq] at hbc
          refine List.mem_append.mpr (Or.inl ?_)
          rw [← haggInj b hbm c hcm hbc]
          exact (h12.mem_iff).mpr (List.mem_map.mpr ⟨b, hbm, rfl⟩)

/-- C1 witness: a single-region baseline/compare pair has duplicate-free
GroupKeys in its join. -/
theorem C1_join_unique_keys_single_region_witness :
    ((fullOuterJoin singleRegionBase singleRegionComp).map groupKey).Nodup :=
  (C1_join_unique_keys_single_region singleRegionBase singleRegionComp "EU"
    (by decide) (by decide) (by decide) (by decide)).1

/-! ## C9 -/

/-- Reading `NULL` cells as `0` yields the same sum as dropping them. -/
theorem qsum_nullAsZero_eq_toQ (l : List DVal) :
    qsum (l.filterMap DVal.nullAsZero) = qsum (l.filterMap DVal.toQ) := by
  induction l with
  | nil => rfl
  | cons v l ih =>
    cases v <;>
      simpa [DVal.nullAsZero, DVal.toQ, qsum, List.filterMap_cons] using ih

/-- Dropping `NULL` cells before taking the numeric contents changes
nothing. -/
theorem filterMap_toQ_filter_nonNull (l : List DVal) :
    ((l.filter fun v => !v.isNull).filterMap DVal.toQ) = l.filterMap DVal.toQ := by
  induction l with
  | nil => rfl
  | cons v l ih =>
    cases v <;> simpa [DVal.isNull, DVal.toQ, List.filterMap_cons] using ih

/-- A column with no `NaN` and at least one non-`NULL` cell sums numerically,
with `NULL` contributing nothing (equivalently, `0`). -/
theorem duckSum_no_nan (l : List DVal) (hnan : ∀ v ∈ l, v.isNan = false)
    (hnn : ∃ v ∈ l, v.isNull = false) :
    duckSum l = DVal.num (qsum (l.filterMap DVal.nullAsZero)) := by
  obtain ⟨v0, hv0, hv0n⟩ := hnn
  have hmem : v0 ∈ l.filter fun v => !v.isNull := List.mem_filter.mpr ⟨hv0, by simp [hv0n]⟩
  unfold duckSum
  rw [if_neg, if_neg]
  · rw [qsum_nullAsZero_eq_toQ, filterMap_toQ_filter_nonNull]
  · simp only [List.any_eq_true, not_exists, not_and]
    intro v hv
    simp [hnan v (List.mem_of_mem_filter hv)]
  · simp only [List.isEmpty_iff]
    exact List.ne_nil_of_mem hmem

/-- An all-`NULL` column sums to `NULL`. -/
theorem duckSum_all_null (l : List DVal) (h : ∀ v ∈ l, v.isNull = true) :
    duckSum l = DVal.null := by
  unfold duckSum
  rw [if_pos]
  simp only [List.isEmpty_iff, List.filter_eq_nil_iff]
  intro v hv
  simp [h v hv]

/-- A `NaN` cell propagates through the sum. -/
theorem duckSum_has_nan (l : List DVal) (h : ∃ v ∈ l, v.isNan = true) :
    duckSum l = DVal.nan := by
  obtain ⟨v0, hv0, hnan⟩ := h
  have hv0' : v0 = DVal.nan := by cases v0 <;> simp_all [DVal.isNan]
  subst hv0'
  have hmem : DVal.nan ∈ l.filter fun v => !v.isNull :=
    List.mem_filter.mpr ⟨hv0, by simp [DVal.isNull]⟩
  unfold duckSum
  rw [if_neg, if_pos]
  · exact List.any_eq_true.mpr ⟨DVal.nan, hmem, by simp [DVal.isNan]⟩
  · simp only [List.isEmpty_iff]
    exact List.ne_nil_of_mem hmem

/-- C9 counterexample: for a single-row group whose `calc_node_raw_hours` is
`NULL` and whose `security_count_thousands` is `NaN`, the aggregation yields a
`NULL` raw sum and a `NaN` security sum — neither is the numeric `0` the claim
prescribes for missing values. -/
theorem C9_agg_null_counterexample :
    (aggregateSnapshot [nullMetricRow] "2025-10-01" none).map
        (fun a => (a.raw_hours, a.security_thousands)) = [(DVal.null, DVal.nan)] ∧
    DVal.null ≠ DVal.num 0 ∧ DVal.nan ≠ DVal.num 0 := by
  refine ⟨by decide, by decide, by decide⟩

/-- C9 (amended): every aggregate row sums exactly its group's column with
DuckDB `SUM` semantics: `NULL` cells are skipped (a row with a missing metric
contributes nothing, equivalently `0`), so with at least one non-`NULL` and no
`NaN` cell the sum is the numeric null-as-zero sum; but an all-`NULL` group
yields `NULL` (coalesced to `0` only later, at the join), and a `NaN` cell
propagates into the sum instead of counting as `0`. -/
theorem C9_agg_sum_null_semantics (rows : List MetricRow) (d : String) (rf : Option String)
    (a : AggRowD) (ha : a ∈ aggregateSnapshot rows d rf) :
    (a.raw_hours = duckSum (((selectSnapshot rows d rf).filter fun r =>
        metricKey r = (a.region, a.parameter_group, a.instance_name, a.model_name)).map
        fun r => r.calc_node_raw_hours)) ∧
    (a.model_cpu_hours = duckSum (((selectSnapshot rows d rf).filter fun r =>
        metricKey r = (a.region, a.parameter_group, a.instance_name, a.model_name)).map
        fun r => r.model_cpu_hours)) ∧
    (a.security_thousands = duckSum (((selectSnapshot rows d rf).filter fun r =>
        metricKey r = (a.region, a.parameter_group, a.instance_name, a.model_name)).map
        fun r => r.security_count_thousands)) ∧
    (∀ l : List DVal, (∀ v ∈ l, v.isNan = false) → (∃ v ∈ l, v.isNull = false) →
      duckSum l = DVal.num (qsum (l.filterMap DVal.nullAsZero))) ∧
    (∀ l : List DVal, (∀ v ∈ l, v.isNull = true) → duckSum l = DVal.null) ∧
    (∀ l : List DVal, (∃ v ∈ l, v.isNan = true) → duckSum l = DVal.nan) := by
  simp only [aggregateSnapshot] at ha
  obtain ⟨⟨k1, k2, k3, k4⟩, _, rfl⟩ := List.mem_map.mp ha
  exact ⟨rfl, rfl, rfl, duckSum_no_nan, duckSum_all_null, duckSum_has_nan⟩

/-- Evaluation of the mixed numeric/`NULL` example's aggregation. -/
theorem aggregateSnapshot_mixedNullRows :
    aggregateSnapshot mixedNullRows "2025-10-01" none = [mixedNullAgg] := by
  norm_num [aggregateSnapshot, selectSnapshot, mixedNullRows, metricKey, duckSum,
    DVal.isNull, DVal.isNan, DVal.toQ, qsum, List.filterMap_cons, List.filterMap_nil,
    mixedNullAgg, List.dedup_cons_of_mem, List.dedup_cons_of_not_mem]

/-- C9 witness: the mixed example's aggregate row is the `SUM` of its
group's raw-hours column. -/
theorem C9_agg_sum_null_semantics_witness :
    mixedNullAgg.raw_hours = duckSum (((selectSnapshot mixedNullRows "2025-10-01" none).filter
      fun r => metricKey r = (mixedNullAgg.region, mixedNullAgg.parameter_group,
        mixedNullAgg.instance_name, mixedNullAgg.model_name)).map
      fun r => r.calc_node_raw_hours) :=
  (C9_agg_sum_null_semantics mixedNullRows "2025-10-01" none mixedNullAgg
    (by simp [aggregateSnapshot_mixedNullRows])).1

end BatchVariance

namespace MetadataPipeline

/-! ## C10 -/

/-- Characterization of the catalog's known dates for a table. -/
theorem mem_existingEodDates {catalog : List MetaRow} {t d : String} :
    d ∈ existingEodDates catalog t ↔
      ∃ r ∈ catalog, r.table_name = t ∧ r.eod_date = d := by
  unfold existingEodDates
  rw [(List.perm_insertionSort _ _).mem_iff, List.mem_dedup]
  simp only [List.mem_map, List.mem_filter, beq_iff_eq]
  constructor
  · rintro ⟨r, ⟨hr, ht⟩, hd⟩
    exact ⟨r, hr, ht, hd⟩
  · rintro ⟨r, hr, ht, hd⟩
    exact ⟨r, ⟨hr, ht⟩, hd⟩

/-- The known dates grow with the catalog. -/
theorem existingEodDates_mono {c c' : List MetaRow} {t d : String}
    (hsub : ∀ r ∈ c, r ∈ c') (hd : d ∈ existingEodDates c t) :
    d ∈ existingEodDates c' t := by
  obtain ⟨r, hr, h1, h2⟩ := mem_existingEodDates.mp hd
  exact mem_existingEodDates.mpr ⟨r, hsub r hr, h1, h2⟩

/-- A catalog row none of the partition's files collides with survives the
per-date update. -/
theorem update_keep (env : S3Env) (c : List MetaRow) (t d : String) (r : MetaRow)
    (hr : r ∈ c) (hno : ∀ f ∈ env.partFiles t d, f.path ≠ r.file_name) :
    r ∈ updateMetadataForTableDate env c t d := by
  simp only [updateMetadataForTableDate]
  split
  · exact hr
  · split
    · exact hr
    · refine List.mem_append_left _ (List.mem_filter.mpr ⟨hr, ?_⟩)
      simp only [Bool.not_eq_eq_eq_not, Bool.not_true, List.any_eq_false]
      intro f hf
      have hff : f ∈ env.partFiles t d := (List.mem_filter.mp hf).1
      simp [hno f hff]

/-- The date loop invokes the per-date update once per listed date, in
order. -/
theorem runDates_invoked (env : S3Env) (t : String) :
    ∀ (ds : List String) (acc : SyncResult),
      (runDates env t ds acc).invoked = acc.invoked ++ ds.map fun d => (t, d)
  | [], acc => by simp [runDates]
  | d :: ds, acc => by
    rw [runDates, runDates_invoked env t ds]
    simp

/-- Rows of the initial catalog survive the date loop when every looped date
is unknown to the initial catalog and the partition listing cannot collide
with a cataloged row of another partition. -/
theorem runDates_preserves (env : S3Env) (catalog0 : List MetaRow) (t : String)
    (hinj : ∀ r ∈ catalog0, ∀ td dd, ∀ f ∈ env.partFiles td dd, f.path = r.file_name →
      td = r.table_name ∧ dd = r.eod_date) :
    ∀ (ds : List String) (acc : SyncResult),
      (∀ d ∈ ds, d ∉ existingEodDates catalog0 t) →
      (∀ r ∈ catalog0, r ∈ acc.catalog) →
      ∀ r ∈ catalog0, r ∈ (runDates env t ds acc).catalog
  | [], _acc => fun _ hacc => hacc
  | d :: ds, acc => fun hds hacc => by
    rw [runDates]
    refine runDates_preserves env catalog0 t hinj ds _
      (fun d' hd' => hds d' (List.mem_cons_of_mem _ hd')) ?_
    intro r hr
    refine update_keep env acc.catalog t d r (hacc r hr) ?_
    intro f hf hpath
    obtain ⟨ht, hd⟩ := hinj r hr t d f hf hpath
    exact (hds d (List.mem_cons_self _ _))
      (mem_existingEodDates.mpr ⟨r, hr, ht.symm, hd.symm⟩)

/-- One table iteration: initial rows survive, and every new invocation pair
is a discovered-but-unknown date of that table. -/
theorem runTable_spec (env : S3Env) (catalog0 : List MetaRow)
    (hinj : ∀ r ∈ catalog0, ∀ td dd, ∀ f ∈ env.partFiles td dd, f.path = r.file_name →
      td = r.table_name ∧ dd = r.eod_date) (acc : SyncResult) (t : String)
    (hacc : ∀ r ∈ catalog0, r ∈ acc.catalog) :
    (∀ r ∈ catalog0, r ∈ (runTable env acc t).catalog) ∧
    ∀ p ∈ (runTable env acc t).invoked, p ∈ acc.invoked ∨
      (p.1 = t ∧ p.2 ∈ discoverS3EodDates (env.partitionDirs t) ∧
        p.2 ∉ existingEodDates catalog0 t) := by
  have hmiss : ∀ d ∈ (discoverS3EodDates (env.partitionDirs t)).filter
      (fun d => !(existingEodDates acc.catalog t).contains d),
      d ∈ discoverS3EodDates (env.partitionDirs t) ∧ d ∉ existingEodDates catalog0 t := by
    intro d hd
    obtain ⟨h1, h2⟩ := List.mem_filter.mp hd
    refine ⟨h1, fun h0 => ?_⟩
    have h3 : d ∈ existingEodDates acc.catalog t := existingEodDates_mono hacc h0
    rw [Bool.not_eq_eq_eq_not, Bool.not_true] at h2
    rw [← List.elem_iff] at h3
    simp only [List.contains] at h2
    rw [h3] at h2
    exact Bool.true_eq_false.mp h2
  constructor
  · intro r hr
    exact runDates_preserves env catalog0 t hinj _ acc
      (fun d hd => (hmiss d hd).2) hacc r hr
  · intro p hp
    rw [runTable, runDates_invoked] at hp
    rcases List.mem_append.mp hp with h | h
    · exact Or.inl h
    · obtain ⟨d, hd, rfl⟩ := List.mem_map.mp h
      exact Or.inr ⟨rfl, (hmiss d hd).1, (hmiss d hd).2⟩

/-- The table fold keeps the initial rows and only ever adds sound
invocations. -/
theorem foldl_runTable_spec (env : S3Env) (catalog0 : List MetaRow)
    (hinj : ∀ r ∈ catalog0, ∀ td dd, ∀ f ∈ env.partFiles td dd, f.path = r.file_name →
      td = r.table_name ∧ dd = r.eod_date) :
    ∀ (ts : List String) (acc : SyncResult),
      (∀ r ∈ catalog0, r ∈ acc.catalog) →
      (∀ p ∈ acc.invoked, p.2 ∈ discoverS3EodDates (env.partitionDirs p.1) ∧
        p.2 ∉ existingEodDates catalog0 p.1) →
      (∀ r ∈ catalog0, r ∈ (ts.foldl (runTable env) acc).catalog) ∧
      ∀ p ∈ (ts.foldl (runTable env) acc).invoked,
        p.2 ∈ discoverS3EodDates (env.partitionDirs p.1) ∧
          p.2 ∉ existingEodDates catalog0 p.1
  | [], _acc => fun hacc hinv => ⟨hacc, hinv⟩
  | t :: ts, acc => fun hacc hinv => by
    rw [List.foldl_cons]
    have h := runTable_spec env catalog0 hinj acc t hacc
    refine foldl_runTable_spec env catalog0 hinj ts (runTable env acc t) h.1 ?_
    intro p hp
    rcases h.2 p hp with hold | ⟨h1, h2, h3⟩
    · exact hinv p hold
    · rw [h1]
      exact ⟨h2, h3⟩

/-- C10: a sync run passes `(table, eod_date)` to the per-date update only
for dates that `discover_s3_eod_dates` reports for that table *and* that are
absent from the catalog's known dates for it (the set difference of
discovered minus existing) — so the file-size change detection inside the
update runs only for not-yet-cataloged dates — and, provided a listed file's
path determines its own `(table, eod_date)` partition (so it cannot collide
with a row cataloged under another partition), every pre-existing catalog row
survives the run untouched. -/
theorem C10_sync_only_missing_dates (env : S3Env) (catalog : List MetaRow)
    (hinj : ∀ r ∈ catalog, ∀ t d, ∀ f ∈ env.partFiles t d, f.path = r.file_name →
      t = r.table_name ∧ d = r.eod_date) :
    (∀ t d, (t, d) ∈ (autoUpdateAllMetadata env catalog).invoked →
      d ∈ discoverS3EodDates (env.partitionDirs t) ∧ d ∉ existingEodDates catalog t) ∧
    ∀ r ∈ catalog, r ∈ (autoUpdateAllMetadata env catalog).catalog := by
  have h := foldl_runTable_spec env catalog hinj env.tables
    { invoked := [], catalog := catalog } (fun _ hr => hr)
    (fun p hp => absurd hp (List.not_mem_nil p))
  exact ⟨fun t d hmem => h.2 (t, d) hmem, h.1⟩

/-- C10 witness: with an empty S3 listing, the pre-existing catalog row is
still present after the run. -/
theorem C10_sync_only_missing_dates_witness :
    exMetaRow ∈ (autoUpdateAllMetadata exEnv exCatalog).catalog :=
  (C10_sync_only_missing_dates exEnv exCatalog
    (fun _r _hr _t _d f hf => absurd hf (List.not_mem_nil f))).2 exMetaRow
    (List.mem_singleton.mpr rfl)

end MetadataPipeline
